import Mathlib

/-!
Verification development for the clardio BLE sensor bridge
(src/clardio_sensors/__init__.py).

Shallow embedding conventions:
* Python byte buffers are `List Nat` (a well-formed buffer has every
  element `< 256`); `data[i]` and `struct.unpack_from` on a too-short
  buffer are modelled as `Except.error` values (`IndexError`,
  `struct.error`).
* The module-global `state : SensorState` is threaded explicitly:
  functions that mutate it take and return a `SensorState`.
* Python `float` arithmetic in the cadence computation is modelled at
  IEEE-754 binary64 fidelity: a double is represented by its exact
  dyadic value `num / 2 ^ k`, the division, the two multiplications and
  the final `round` are each correctly rounded (ties to even), so
  `cadenceRound` returns bit-for-bit what the source's
  `round((rev_delta / time_delta) * 1024 * 60)` returns — including the
  inputs where the float result differs from rounding the exact
  rational (`cadenceRound_ties_differ`).
* The asynchronous session loop (`manage_device`) and the scanner loop
  (`scan_for_devices`) are modelled by their loop-body step functions on
  explicit state; queue handoffs become lists of pushed addresses.
-/

/-- Python exceptions the decoders can raise: `IndexError` from indexing
a too-short bytes object, `struct.error` from `unpack_from` past the end
of the buffer. -/
inductive PyErr where
  | indexError
  | structError
deriving DecidableEq

/-- The `SensorState` dataclass (source lines 47-56): current metric
values, per-device connected flags, and the remembered crank pair used
by the cadence computation. -/
structure SensorState where
  power : Int := 0
  hr : Int := 0
  cadence : Int := 0
  connected_gymnasticon : Bool := false
  connected_coros : Bool := false
  last_crank_revs : Option Nat := none
  last_crank_time : Option Nat := none
deriving DecidableEq

/-- `RECONNECT_DELAY = 5.0` (source line 40), in seconds. -/
def RECONNECT_DELAY : ℚ := 5

/-- Characteristic UUID `CHAR_HEART_RATE` (source line 34). -/
def CHAR_HEART_RATE : String := "00002a37-0000-1000-8000-00805f9b34fb"

/-- Characteristic UUID `CHAR_CYCLING_POWER` (source line 35). -/
def CHAR_CYCLING_POWER : String := "00002a63-0000-1000-8000-00805f9b34fb"

/-- Characteristic UUID `CHAR_CSC_MEASUREMENT` (source line 36). -/
def CHAR_CSC_MEASUREMENT : String := "00002a5b-0000-1000-8000-00805f9b34fb"

/-- `data[i]` on a Python `bytes` value: the byte, or `IndexError` when
`i` is out of range. -/
def getByte (data : List Nat) (i : Nat) : Except PyErr Nat :=
  match data.get? i with
  | some b => Except.ok b
  | none => Except.error PyErr.indexError

/-- `struct.unpack_from("<H", data, off)`: the little-endian 16-bit
unsigned integer at offset `off`, or `struct.error` when the buffer is
too short. -/
def unpackU16 (data : List Nat) (off : Nat) : Except PyErr Nat :=
  match data.get? off, data.get? (off + 1) with
  | some lo, some hi => Except.ok (lo + 256 * hi)
  | _, _ => Except.error PyErr.structError

/-- Reinterpretation of a 16-bit unsigned value as the signed value that
`struct.unpack_from("<h", ...)` yields from the same two bytes. -/
def leSigned16 (u : Nat) : Int :=
  if u < 32768 then (u : Int) else (u : Int) - 65536

/-- Round half to even of the rational `n / d`, for `0 < d`: `/` and
`%` on `Int` are Euclidean, so for a positive divisor `n / d` is the
floor of the quotient and `n % d` the remainder in `[0, d)`.  This is
Python `round` on an exact value, and also the significand-rounding
step of IEEE-754 binary64 arithmetic below. -/
def pyRoundDiv (n d : Int) : Int :=
  if 2 * (n % d) < d then n / d
  else if d < 2 * (n % d) then n / d + 1
  else if (n / d) % 2 = 0 then n / d else n / d + 1

/-- Floor of log2, by structural recursion on a fuel argument so that it
reduces in the kernel; `floorLog2 n` calls it with fuel `n`, which
suffices because the argument at least halves at every step. -/
def floorLog2Aux : Nat → Nat → Nat
  | 0, _ => 0
  | fuel + 1, n => if 2 ≤ n then floorLog2Aux fuel (n / 2) + 1 else 0

/-- Floor of log2 of a natural number (0 for `n ≤ 1`); characterized by
`floorLog2_spec`. -/
def floorLog2 (n : Nat) : Nat := floorLog2Aux n n

/-- Floor of log2 of the positive rational `a / b`: the candidate
`floorLog2 a - floorLog2 b` is off by at most one and is corrected by a
single comparison.  Characterized by `ratLog2_spec`. -/
def ratLog2 (a b : Int) : Int :=
  if 0 ≤ (floorLog2 a.toNat : Int) - (floorLog2 b.toNat : Int) then
    (if b * 2 ^ ((floorLog2 a.toNat : Int) - (floorLog2 b.toNat : Int)).toNat ≤ a then
      (floorLog2 a.toNat : Int) - (floorLog2 b.toNat : Int)
    else (floorLog2 a.toNat : Int) - (floorLog2 b.toNat : Int) - 1)
  else
    (if b ≤ a * 2 ^ ((floorLog2 b.toNat : Int) - (floorLog2 a.toNat : Int)).toNat then
      (floorLog2 a.toNat : Int) - (floorLog2 b.toNat : Int)
    else (floorLog2 a.toNat : Int) - (floorLog2 b.toNat : Int) - 1)

/-- Significand of the binary64 value nearest `a / b` (for positive
`a`, `b`): with `e = ratLog2 a b` the quotient lies in
`[2 ^ e, 2 ^ (e+1))`, and the significand is the half-to-even rounding
of `(a / b) * 2 ^ (52 - e)`, a value in `[2 ^ 52, 2 ^ 53]`. -/
def flDivSig (a b : Int) : Int :=
  if 0 ≤ 52 - ratLog2 a b then pyRoundDiv (a * 2 ^ (52 - ratLog2 a b).toNat) b
  else pyRoundDiv a (b * 2 ^ (ratLog2 a b - 52).toNat)

/-- IEEE-754 binary64 true division: the double nearest `a / b` (round
to nearest, ties to even), represented by its exact dyadic value as a
pair `(num, k)` meaning `num / 2 ^ k`.  The exponent range of binary64
is not modelled: every value arising in the cadence computation is far
from the overflow and subnormal thresholds. -/
def flDiv (a b : Int) : Int × Nat :=
  if a = 0 then (0, 0)
  else if 0 ≤ ratLog2 a b - 52 then (flDivSig a b * 2 ^ (ratLog2 a b - 52).toNat, 0)
  else (flDivSig a b, (52 - ratLog2 a b).toNat)

/-- Round the exact dyadic value `n / 2 ^ k` (`0 ≤ n`) to 53
significant bits, ties to even: exact when `n < 2 ^ 53`, otherwise the
low `floorLog2 n - 52` bits are rounded away.  This is binary64
rounding of an exact dyadic intermediate result. -/
def fl53 (n : Int) (k : Nat) : Int × Nat :=
  if n < 2 ^ 53 then (n, k)
  else if k ≤ floorLog2 n.toNat - 52 then
    (pyRoundDiv n (2 ^ (floorLog2 n.toNat - 52)) * 2 ^ (floorLog2 n.toNat - 52 - k), 0)
  else (pyRoundDiv n (2 ^ (floorLog2 n.toNat - 52)), k - (floorLog2 n.toNat - 52))

/-- Binary64 multiplication of a double by an integer: the exact
product, rounded to 53 significant bits. -/
def flMulInt (x : Int × Nat) (c : Int) : Int × Nat := fl53 (x.1 * c) x.2

/-- Python `round` applied to a double: half-to-even rounding of its
exact dyadic value. -/
def pyRoundDyadic (x : Int × Nat) : Int := pyRoundDiv x.1 (2 ^ x.2)

/-- `round((rd / td) * 1024 * 60)` exactly as the source evaluates it
in Python floats: correctly rounded binary64 division `rd / td`,
multiplication by `1024 = 2 ^ 10` (exact in binary64, handled by the
same rounding step), correctly rounded multiplication by `60`, then
Python `round` (half to even) on the resulting double.  At exact `.5`
ties this differs from rounding the exact rational
(`cadenceRound_ties_differ`). -/
def cadenceRound (rd td : Int) : Int :=
  pyRoundDyadic (flMulInt (flMulInt (flDiv rd td) 1024) 60)

/-- `parse_heart_rate` (source lines 66-73): byte 0 is a flags field;
bit 0 set means the value is a little-endian 16-bit integer at offset 1,
bit 0 clear means it is the single byte at offset 1. -/
def parse_heart_rate (data : List Nat) : Except PyErr Nat :=
  match getByte data 0 with
  | Except.error e => Except.error e
  | Except.ok flags =>
    if flags.testBit 0 then
      match unpackU16 data 1 with
      | Except.error e => Except.error e
      | Except.ok v => Except.ok v
    else getByte data 1

/-- `parse_cycling_power` (source lines 76-80): instantaneous power is
the little-endian signed 16-bit integer at offset 2, clamped to be
nonnegative with `max(0, power)`. -/
def parse_cycling_power (data : List Nat) : Except PyErr Int :=
  match unpackU16 data 2 with
  | Except.error e => Except.error e
  | Except.ok u => Except.ok (max 0 (leSigned16 u))

/-- `parse_csc_measurement` (source lines 83-120): decodes the crank
pair when flags bit 1 is set (at offset 7 instead of 1 when wheel data
is present, flags bit 0), then computes the cadence from the delta to
the remembered pair with 16-bit rollover correction.  The Python code
mutates the global `state` and returns `int | None`; here the updated
state is returned alongside the optional cadence.  The Python local
`offset` is inlined at its two use sites. -/
def parse_csc_measurement (data : List Nat) (s : SensorState) :
    Except PyErr (SensorState × Option Int) :=
  match getByte data 0 with
  | Except.error e => Except.error e
  | Except.ok flags =>
    if !flags.testBit 1 then
      Except.ok (s, none)
    else
      match unpackU16 data (if flags.testBit 0 then 7 else 1),
          unpackU16 data ((if flags.testBit 0 then 7 else 1) + 2) with
      | Except.ok crank_revs, Except.ok crank_time =>
        match s.last_crank_revs, s.last_crank_time with
        | some pr, some pt =>
          -- the Python locals rev_delta and time_delta, after the
          -- 16-bit rollover fix, are inlined below as the two
          -- if-expressions
          if 0 < (if (crank_time : Int) - (pt : Int) < 0
                  then (crank_time : Int) - (pt : Int) + 65536
                  else (crank_time : Int) - (pt : Int)) then
            -- round((rev_delta / time_delta) * 1024 * 60), evaluated
            -- in binary64 floats as the source does
            Except.ok
              ({ s with last_crank_revs := some crank_revs,
                        last_crank_time := some crank_time },
                some (cadenceRound
                  (if (crank_revs : Int) - (pr : Int) < 0
                    then (crank_revs : Int) - (pr : Int) + 65536
                    else (crank_revs : Int) - (pr : Int))
                  (if (crank_time : Int) - (pt : Int) < 0
                    then (crank_time : Int) - (pt : Int) + 65536
                    else (crank_time : Int) - (pt : Int))))
          else
            Except.ok
              ({ s with last_crank_revs := some crank_revs,
                        last_crank_time := some crank_time }, none)
        | _, _ =>
          Except.ok
            ({ s with last_crank_revs := some crank_revs,
                      last_crank_time := some crank_time }, none)
      | Except.error e, _ => Except.error e
      | _, Except.error e => Except.error e

/-- `handle_heart_rate` (source lines 133-137): store the decoded heart
rate; an exception from the decoder propagates before any write, so the
state is unchanged in the error case. -/
def handle_heart_rate (data : List Nat) (s : SensorState) : SensorState :=
  match parse_heart_rate data with
  | Except.ok v => { s with hr := (v : Int) }
  | Except.error _ => s

/-- `handle_cycling_power` (source lines 140-144). -/
def handle_cycling_power (data : List Nat) (s : SensorState) : SensorState :=
  match parse_cycling_power data with
  | Except.ok p => { s with power := p }
  | Except.error _ => s

/-- `handle_csc_measurement` (source lines 147-152): the decoder already
updated the crank memory; the cadence metric is written only when a
cadence was produced. -/
def handle_csc_measurement (data : List Nat) (s : SensorState) : SensorState :=
  match parse_csc_measurement data s with
  | Except.ok (t, some c) => { t with cadence := c }
  | Except.ok (t, none) => t
  | Except.error _ => s

/-- ASCII `str.lower()`, as applied to the device names. -/
def pyLower (s : String) : String := ⟨s.data.map Char.toLower⟩

/-- Helper for the Python substring test: does the pattern occur at the
head of the character list? -/
def charsStart : List Char → List Char → Bool
  | [], _ => true
  | _ :: _, [] => false
  | p :: ps, c :: cs => p == c && charsStart ps cs

/-- Helper for the Python substring test: does the pattern occur
anywhere in the character list? -/
def charsHaveSub (pat : List Char) : List Char → Bool
  | [] => pat.isEmpty
  | c :: cs => charsStart pat (c :: cs) || charsHaveSub pat cs

/-- Python `pat in s` on strings: substring containment. -/
def pyInStr (pat s : String) : Bool := charsHaveSub pat.data s.data

/-- The `set_connected` callback wired to the Gymnasticon session
(source line 366). -/
def setConnGym (v : Bool) (s : SensorState) : SensorState :=
  { s with connected_gymnasticon := v }

/-- The `set_connected` callback wired to the COROS session (source
line 374). -/
def setConnCoros (v : Bool) (s : SensorState) : SensorState :=
  { s with connected_coros := v }

/-- The metric reset on disconnect (source lines 217-222): zero power
and cadence when the session name contains "gymnasticon" (lowercased),
otherwise zero the heart rate.  The crank memory fields are not
touched. -/
def disconnectReset (name : String) (s : SensorState) : SensorState :=
  if pyInStr "gymnasticon" (pyLower name) then
    { s with power := 0, cadence := 0 }
  else
    { s with hr := 0 }

/-- The `Monitoring → Disconnected` transition of `manage_device`
(source lines 214-222): `set_connected(False)` followed by the owned
metric reset. -/
def sessionDisconnect (name : String) (setConn : Bool → SensorState → SensorState)
    (s : SensorState) : SensorState :=
  disconnectReset name (setConn false s)

/-- The disconnect transition of the Gymnasticon session. -/
def gymOnDisconnect (s : SensorState) : SensorState :=
  sessionDisconnect "Gymnasticon" setConnGym s

/-- The disconnect transition of the COROS PACE 3 session. -/
def corosOnDisconnect (s : SensorState) : SensorState :=
  sessionDisconnect "COROS PACE 3" setConnCoros s

/-- A connected BLE client, carrying the set of characteristic UUIDs
whose `start_notify` subscription succeeded. -/
structure BleClient where
  subscriptions : List String
deriving DecidableEq

/-- `connect_device` (source lines 159-182): on connect failure return
`None`; on success attempt every subscription in order, keeping only the
ones that succeed (a failure is logged and skipped), and return the
client either way.  Each characteristic is paired with the outcome its
`start_notify` attempt would have. -/
def connect_device (connectOk : Bool) (chars : List (String × Bool)) :
    Option BleClient :=
  if connectOk then
    some { subscriptions := (chars.filter (fun c => c.2)).map (fun c => c.1) }
  else none

/-- The control position a `manage_device` iteration ends in. -/
inductive SessionPhase where
  | idle
  | monitoring
deriving DecidableEq

/-- The step of `manage_device` (source lines 193-210) that follows a
dequeued discovery event and a connect attempt: on failure sleep
`RECONNECT_DELAY` and `continue`, which re-enters the blocking
`device_queue.get()` (phase `idle`, so the next connect uses a freshly
dequeued device); on success call `set_connected(True)` and enter the
liveness-polling loop (phase `monitoring`).  The result is the updated
state, the next phase, and the seconds slept before reaching it. -/
def manageAfterConnect (client : Option BleClient)
    (setConn : Bool → SensorState → SensorState) (s : SensorState) :
    SensorState × SessionPhase × ℚ :=
  match client with
  | none => (s, SessionPhase.idle, RECONNECT_DELAY)
  | some _ => (setConn true s, SessionPhase.monitoring, 0)

/-- The still-needed set of one scanner cycle (source line 233): the
target addresses not yet in the found set. -/
def stillNeeded (targets found : List String) : List String :=
  targets.filter (fun m => decide (m ∉ found))

/-- The dispatch loop over one scan result (source lines 247-251): for
every discovered address in the needed set, add it to the found set and
push a handoff event onto its queue.  Returns the final found set and
the pushed addresses in order. -/
def scanProcess (needed : List String) :
    List String → List String → List String × List String
  | found, [] => (found, [])
  | found, addr :: rest =>
    if addr ∈ needed then
      let r := scanProcess needed (addr :: found) rest
      (r.1, addr :: r.2)
    else scanProcess needed found rest

/-- One cycle of `scan_for_devices` (source lines 231-261): compute the
needed set; when it is empty sleep `RECONNECT_DELAY` and clear the found
set (no scan, no pushes); otherwise scan and dispatch the discovered
addresses. -/
def scan_cycle (targets found discovered : List String) :
    List String × List String :=
  if stillNeeded targets found = [] then ([], [])
  else scanProcess (stillNeeded targets found) found discovered

/-- A CSC Measurement notification carrying crank data: a flags byte
with bit 1 set (plus bit 0 and six placeholder wheel-revolution bytes
when wheel data is present), followed by the little-endian crank
revolution count and crank event time. -/
def mkCrankSample (wheel : Bool) (revs time : Nat) : List Nat :=
  if wheel then
    [3, 0, 0, 0, 0, 0, 0, revs % 256, revs / 256, time % 256, time / 256]
  else
    [2, revs % 256, revs / 256, time % 256, time / 256]

/-- Well-formedness of a remembered crank field: when set it is a 16-bit
value, as every stored value comes from `unpack("<H", ...)`. -/
def crankWF : Option Nat → Prop
  | none => True
  | some v => v < 65536

/-- The invariant of the shared metrics state: the three metrics are
nonnegative and the crank memory holds 16-bit values. -/
def stateWF (s : SensorState) : Prop :=
  0 ≤ s.power ∧ 0 ≤ s.hr ∧ 0 ≤ s.cadence ∧
    crankWF s.last_crank_revs ∧ crankWF s.last_crank_time

/-! ## Helper lemmas -/

/-- A rounded quotient of nonnegative numbers is nonnegative. -/
lemma pyRoundDiv_nonneg (n d : Int) (hn : 0 ≤ n) (hd : 0 ≤ d) : 0 ≤ pyRoundDiv n d := by
  have hq : 0 ≤ n / d := Int.ediv_nonneg hn hd
  unfold pyRoundDiv
  split_ifs <;> omega

/-- Characterization of the fuel-based log: with enough fuel it returns
the floor of log2. -/
lemma floorLog2Aux_spec : ∀ (fuel n : Nat), n ≤ fuel → 1 ≤ n →
    2 ^ floorLog2Aux fuel n ≤ n ∧ n < 2 ^ (floorLog2Aux fuel n + 1) := by
  intro fuel
  induction fuel with
  | zero =>
    intro n h1 h2
    omega
  | succ fuel ih =>
    intro n h1 h2
    rw [floorLog2Aux]
    by_cases h : 2 ≤ n
    · rw [if_pos h]
      have hd1 : n / 2 ≤ fuel := by omega
      have hd2 : 1 ≤ n / 2 := by omega
      obtain ⟨ha, hb⟩ := ih (n / 2) hd1 hd2
      rw [pow_succ, pow_succ]
      constructor
      · omega
      · rw [pow_succ] at hb
        omega
    · rw [if_neg h]
      simp
      omega

/-- `floorLog2 n` is the floor of log2 of `n` for `1 ≤ n`. -/
lemma floorLog2_spec (n : Nat) (h : 1 ≤ n) :
    2 ^ floorLog2 n ≤ n ∧ n < 2 ^ (floorLog2 n + 1) :=
  floorLog2Aux_spec n n (le_refl n) h

/-- `ratLog2 a b` is the floor of log2 of `a / b` for positive `a`,
`b`, stated with the division cleared: `2 ^ e ≤ a / b < 2 ^ (e + 1)`,
where a power with negative exponent moves to the other side. -/
lemma ratLog2_spec (a b : Int) (ha : 0 < a) (hb : 0 < b) :
    b * 2 ^ (ratLog2 a b).toNat ≤ a * 2 ^ (-ratLog2 a b).toNat ∧
    a * 2 ^ (-(ratLog2 a b + 1)).toNat < b * 2 ^ (ratLog2 a b + 1).toNat := by
  obtain ⟨ha1, ha2⟩ := floorLog2_spec a.toNat (by omega)
  obtain ⟨hb1, hb2⟩ := floorLog2_spec b.toNat (by omega)
  have haa : ((a.toNat : Int)) = a := Int.toNat_of_nonneg (le_of_lt ha)
  have hbb : ((b.toNat : Int)) = b := Int.toNat_of_nonneg (le_of_lt hb)
  set la := floorLog2 a.toNat with hla
  set lb := floorLog2 b.toNat with hlb
  have hA1 : (2 : Int) ^ la ≤ a := by
    rw [← haa]
    exact_mod_cast ha1
  have hA2 : a < (2 : Int) ^ (la + 1) := by
    rw [← haa]
    exact_mod_cast ha2
  have hB1 : (2 : Int) ^ lb ≤ b := by
    rw [← hbb]
    exact_mod_cast hb1
  have hB2 : b < (2 : Int) ^ (lb + 1) := by
    rw [← hbb]
    exact_mod_cast hb2
  have hp : ∀ k : Nat, (0 : Int) < 2 ^ k := fun k => pow_pos (by norm_num) k
  unfold ratLog2
  rw [← hla, ← hlb]
  split_ifs with h1 h2 h3
  · -- 0 ≤ la - lb and the candidate power fits below a / b
    have e1 : (-(( la : Int) - lb)).toNat = 0 := by omega
    have e2 : (-((( la : Int) - lb) + 1)).toNat = 0 := by omega
    have e3 : ((( la : Int) - lb) + 1).toNat = la - lb + 1 := by omega
    have e4 : ((( la : Int) - lb)).toNat = la - lb := by omega
    simp only [e1, e2, e3, e4, pow_zero, mul_one]
    constructor
    · rw [e4] at h2
      exact h2
    · calc a < 2 ^ (la + 1) := hA2
        _ = 2 ^ lb * 2 ^ (la - lb + 1) := by
            rw [← pow_add]
            congr 1
            omega
        _ ≤ b * 2 ^ (la - lb + 1) :=
            mul_le_mul_of_nonneg_right hB1 (le_of_lt (hp _))
  · -- 0 ≤ la - lb but the candidate is one too high
    have h2a : a < b * 2 ^ ((( la : Int) - lb)).toNat := by omega
    by_cases hq : lb = la
    · have e1 : ((( la : Int) - lb - 1)).toNat = 0 := by omega
      have e2 : (-(( la : Int) - lb - 1)).toNat = 1 := by omega
      have e3 : (-((( la : Int) - lb - 1) + 1)).toNat = 0 := by omega
      have e4 : (((( la : Int) - lb - 1)) + 1).toNat = 0 := by omega
      have e5 : ((( la : Int) - lb)).toNat = 0 := by omega
      rw [e5, pow_zero, mul_one] at h2a
      simp only [e1, e2, e3, e4, pow_zero, pow_one, mul_one]
      constructor
      · have h6 : (2 : Int) ^ (lb + 1) = 2 ^ la * 2 := by
          rw [hq, pow_succ]
        have h7 : (2 : Int) ^ la ≤ a := hA1
        omega
      · exact h2a
    · have hlt : lb < la := by omega
      have e1 : ((( la : Int) - lb - 1)).toNat = la - lb - 1 := by omega
      have e2 : (-(( la : Int) - lb - 1)).toNat = 0 := by omega
      have e3 : (-((( la : Int) - lb - 1) + 1)).toNat = 0 := by omega
      have e4 : (((( la : Int) - lb - 1)) + 1).toNat = la - lb := by omega
      have e5 : ((( la : Int) - lb)).toNat = la - lb := by omega
      rw [e5] at h2a
      simp only [e1, e2, e3, e4, pow_zero, mul_one]
      constructor
      · have step : b * 2 ^ (la - lb - 1) < 2 ^ (lb + 1) * 2 ^ (la - lb - 1) :=
          mul_lt_mul_of_pos_right hB2 (hp _)
        have step2 : (2 : Int) ^ (lb + 1) * 2 ^ (la - lb - 1) = 2 ^ la := by
          rw [← pow_add]
          congr 1
          omega
        have step3 : (2 : Int) ^ la ≤ a := hA1
        omega
      · exact h2a
  · -- la - lb < 0 and the candidate power fits below a / b
    have e3 : ((( lb : Int) - la)).toNat = lb - la := by omega
    rw [e3] at h3
    have e1 : ((( la : Int) - lb)).toNat = 0 := by omega
    have e2 : (-(( la : Int) - lb)).toNat = lb - la := by omega
    by_cases hq : lb = la + 1
    · have e4 : (-((( la : Int) - lb) + 1)).toNat = 0 := by omega
      have e5 : (((( la : Int) - lb)) + 1).toNat = 0 := by omega
      simp only [e1, e2, e4, e5, pow_zero, mul_one]
      constructor
      · exact h3
      · have h6 : (2 : Int) ^ (la + 1) = 2 ^ lb := by rw [hq]
        have h7 : (2 : Int) ^ lb ≤ b := hB1
        omega
    · have hlt : la + 1 < lb := by omega
      have e4 : (-((( la : Int) - lb) + 1)).toNat = lb - la - 1 := by omega
      have e5 : (((( la : Int) - lb)) + 1).toNat = 0 := by omega
      simp only [e1, e2, e4, e5, pow_zero, mul_one]
      constructor
      · exact h3
      · have step : a * 2 ^ (lb - la - 1) < 2 ^ (la + 1) * 2 ^ (lb - la - 1) :=
          mul_lt_mul_of_pos_right hA2 (hp _)
        have step2 : (2 : Int) ^ (la + 1) * 2 ^ (lb - la - 1) = 2 ^ lb := by
          rw [← pow_add]
          congr 1
          omega
        have step3 : (2 : Int) ^ lb ≤ b := hB1
        omega
  · -- la - lb < 0 and the candidate is one too high
    have e3 : ((( lb : Int) - la)).toNat = lb - la := by omega
    rw [e3] at h3
    have h3a : a * 2 ^ (lb - la) < b := by omega
    have e1 : ((( la : Int) - lb - 1)).toNat = 0 := by omega
    have e2 : (-(( la : Int) - lb - 1)).toNat = lb - la + 1 := by omega
    have e4 : (-((( la : Int) - lb - 1) + 1)).toNat = lb - la := by omega
    have e5 : (((( la : Int) - lb - 1)) + 1).toNat = 0 := by omega
    simp only [e1, e2, e4, e5, pow_zero, mul_one]
    constructor
    · have step2 : (2 : Int) ^ (lb + 1) = 2 ^ la * 2 ^ (lb - la + 1) := by
        rw [← pow_add]
        congr 1
        omega
      have step3 : (2 : Int) ^ la * 2 ^ (lb - la + 1) ≤ a * 2 ^ (lb - la + 1) :=
        mul_le_mul_of_nonneg_right hA1 (le_of_lt (hp _))
      omega
    · exact h3a

/-- The division significand of nonnegative inputs is nonnegative. -/
lemma flDivSig_nonneg (a b : Int) (ha : 0 ≤ a) (hb : 0 ≤ b) : 0 ≤ flDivSig a b := by
  unfold flDivSig
  split_ifs
  · exact pyRoundDiv_nonneg _ _ (mul_nonneg ha (pow_nonneg (by norm_num) _)) hb
  · exact pyRoundDiv_nonneg _ _ ha (mul_nonneg hb (pow_nonneg (by norm_num) _))

/-- Binary64 division of nonnegative inputs is nonnegative. -/
lemma flDiv_nonneg (a b : Int) (ha : 0 ≤ a) (hb : 0 ≤ b) : 0 ≤ (flDiv a b).1 := by
  unfold flDiv
  split_ifs
  · exact le_refl 0
  · exact mul_nonneg (flDivSig_nonneg a b ha hb) (pow_nonneg (by norm_num) _)
  · exact flDivSig_nonneg a b ha hb

/-- Rounding a nonnegative dyadic to 53 bits stays nonnegative. -/
lemma fl53_nonneg (n : Int) (k : Nat) (hn : 0 ≤ n) : 0 ≤ (fl53 n k).1 := by
  unfold fl53
  have hr : 0 ≤ pyRoundDiv n (2 ^ (floorLog2 n.toNat - 52)) :=
    pyRoundDiv_nonneg _ _ hn (pow_nonneg (by norm_num) _)
  split_ifs
  · exact hn
  · exact mul_nonneg hr (pow_nonneg (by norm_num) _)
  · exact hr

/-- Binary64 multiplication by a nonnegative integer preserves sign. -/
lemma flMulInt_nonneg (x : Int × Nat) (c : Int) (hx : 0 ≤ x.1) (hc : 0 ≤ c) :
    0 ≤ (flMulInt x c).1 :=
  fl53_nonneg _ _ (mul_nonneg hx hc)

/-- The cadence computed from nonnegative deltas is nonnegative —
Python `round` of a nonnegative float is nonnegative. -/
lemma cadenceRound_nonneg (rd td : Int) (h1 : 0 ≤ rd) (h2 : 0 ≤ td) :
    0 ≤ cadenceRound rd td :=
  pyRoundDiv_nonneg _ _
    (flMulInt_nonneg _ _
      (flMulInt_nonneg _ _ (flDiv_nonneg rd td h1 h2) (by norm_num)) (by norm_num))
    (pow_nonneg (by norm_num) _)

/-- The binary64 evaluation is not rounding of the exact rational: with
deltas (25, 24576) the exact value of `(25 / 24576) * 1024 * 60` is
62.5, whose half-to-even rounding is 62, but the float computation
yields 62.500000000000007... and the source returns 63. -/
lemma cadenceRound_ties_differ :
    cadenceRound 25 24576 = 63 ∧ pyRoundDiv (25 * 1024 * 60) 24576 = 62 :=
  ⟨rfl, rfl⟩

/-- A successful 16-bit unpack of a well-formed byte buffer yields a
16-bit value. -/
lemma unpackU16_lt (data : List Nat) (off v : Nat) (hb : ∀ b ∈ data, b < 256)
    (h : unpackU16 data off = Except.ok v) : v < 65536 := by
  unfold unpackU16 at h
  split at h
  case _ lo hi hlo hhi =>
    have h1 : lo < 256 := hb lo (List.get?_mem hlo)
    have h2 : hi < 256 := hb hi (List.get?_mem hhi)
    have h3 : lo + 256 * hi = v := by
      simpa using h
    omega
  case _ =>
    simp at h

/-- A successful power decode is nonnegative, because of the
`max(0, power)` clamp. -/
lemma parse_cycling_power_nonneg (data : List Nat) (p : Int)
    (h : parse_cycling_power data = Except.ok p) : 0 ≤ p := by
  unfold parse_cycling_power at h
  split at h
  case _ => simp at h
  case _ u hu =>
    have h2 : max 0 (leSigned16 u) = p := by simpa using h
    rw [← h2]
    exact le_max_left 0 _

/-- Reduction of the CSC decoder when the buffer decodes to crank data
and a previous pair is stored: the new pair is stored and the cadence
branch is taken on the sign of the (rollover-fixed) time delta. -/
lemma parse_csc_crank_prev (data : List Nat) (s : SensorState) (flags revs time pr pt : Nat)
    (hf : getByte data 0 = Except.ok flags)
    (hb : flags.testBit 1 = true)
    (hrv : unpackU16 data (if flags.testBit 0 then 7 else 1) = Except.ok revs)
    (htm : unpackU16 data ((if flags.testBit 0 then 7 else 1) + 2) = Except.ok time)
    (h5 : s.last_crank_revs = some pr) (h6 : s.last_crank_time = some pt) :
    parse_csc_measurement data s =
      (if 0 < (if (time : Int) - (pt : Int) < 0 then (time : Int) - (pt : Int) + 65536
               else (time : Int) - (pt : Int)) then
        Except.ok ({ s with last_crank_revs := some revs, last_crank_time := some time },
          some (cadenceRound
            (if (revs : Int) - (pr : Int) < 0 then (revs : Int) - (pr : Int) + 65536
              else (revs : Int) - (pr : Int))
            (if (time : Int) - (pt : Int) < 0 then (time : Int) - (pt : Int) + 65536
              else (time : Int) - (pt : Int))))
      else
        Except.ok ({ s with last_crank_revs := some revs, last_crank_time := some time },
          none)) := by
  obtain ⟨p, hh, c, cg, cc, lr, lt⟩ := s
  have h5a : lr = some pr := h5
  have h6a : lt = some pt := h6
  subst h5a
  subst h6a
  unfold parse_csc_measurement
  rw [hf]
  simp only [hb, Bool.not_true, Bool.false_eq_true, if_false]
  rw [hrv, htm]

/-- Reduction of the CSC decoder when the buffer decodes to crank data
and no previous pair is stored: the pair is stored and no cadence is
produced. -/
lemma parse_csc_crank_first (data : List Nat) (s : SensorState) (flags revs time : Nat)
    (hf : getByte data 0 = Except.ok flags)
    (hb : flags.testBit 1 = true)
    (hrv : unpackU16 data (if flags.testBit 0 then 7 else 1) = Except.ok revs)
    (htm : unpackU16 data ((if flags.testBit 0 then 7 else 1) + 2) = Except.ok time)
    (h : s.last_crank_revs = none ∨ s.last_crank_time = none) :
    parse_csc_measurement data s =
      Except.ok ({ s with last_crank_revs := some revs, last_crank_time := some time },
        none) := by
  obtain ⟨p, hh, c, cg, cc, lr, lt⟩ := s
  unfold parse_csc_measurement
  rw [hf]
  simp only [hb, Bool.not_true, Bool.false_eq_true, if_false]
  rw [hrv, htm]
  rcases h with h | h
  · have h2a : lr = none := h
    subst h2a
    rfl
  · have h2a : lt = none := h
    subst h2a
    cases lr <;> rfl

/-- Crank-sample decoding, no wheel data: the revolution field sits at
offset 1. -/
lemma mkCrank_false_revs (revs time : Nat) :
    unpackU16 (mkCrankSample false revs time) (if Nat.testBit 2 0 then 7 else 1) =
      Except.ok revs := by
  rw [show (if Nat.testBit 2 0 then 7 else 1 : Nat) = 1 from by decide]
  show Except.ok (revs % 256 + 256 * (revs / 256)) = Except.ok revs
  rw [Nat.mod_add_div]

/-- Crank-sample decoding, no wheel data: the event-time field sits at
offset 3. -/
lemma mkCrank_false_time (revs time : Nat) :
    unpackU16 (mkCrankSample false revs time) ((if Nat.testBit 2 0 then 7 else 1) + 2) =
      Except.ok time := by
  rw [show ((if Nat.testBit 2 0 then 7 else 1 : Nat) + 2) = 3 from by decide]
  show Except.ok (time % 256 + 256 * (time / 256)) = Except.ok time
  rw [Nat.mod_add_div]

/-- Crank-sample decoding, wheel data present: the revolution field sits
at offset 7. -/
lemma mkCrank_true_revs (revs time : Nat) :
    unpackU16 (mkCrankSample true revs time) (if Nat.testBit 3 0 then 7 else 1) =
      Except.ok revs := by
  rw [show (if Nat.testBit 3 0 then 7 else 1 : Nat) = 7 from by decide]
  show Except.ok (revs % 256 + 256 * (revs / 256)) = Except.ok revs
  rw [Nat.mod_add_div]

/-- Crank-sample decoding, wheel data present: the event-time field sits
at offset 9. -/
lemma mkCrank_true_time (revs time : Nat) :
    unpackU16 (mkCrankSample true revs time) ((if Nat.testBit 3 0 then 7 else 1) + 2) =
      Except.ok time := by
  rw [show ((if Nat.testBit 3 0 then 7 else 1 : Nat) + 2) = 9 from by decide]
  show Except.ok (time % 256 + 256 * (time / 256)) = Except.ok time
  rw [Nat.mod_add_div]

/-- Frame conditions of a successful CSC decode on a well-formed buffer:
the metrics and connection flags are untouched, the stored crank pair
stays 16-bit, and a produced cadence is nonnegative. -/
lemma parse_csc_ok_fields (data : List Nat) (s t : SensorState) (c : Option Int)
    (hb : ∀ b ∈ data, b < 256)
    (hwr : crankWF s.last_crank_revs) (hwt : crankWF s.last_crank_time)
    (h : parse_csc_measurement data s = Except.ok (t, c)) :
    t.power = s.power ∧ t.hr = s.hr ∧ t.cadence = s.cadence ∧
    t.connected_gymnasticon = s.connected_gymnasticon ∧
    t.connected_coros = s.connected_coros ∧
    crankWF t.last_crank_revs ∧ crankWF t.last_crank_time ∧
    (∀ v, c = some v → 0 ≤ v) := by
  unfold parse_csc_measurement at h
  split at h
  case _ => simp at h
  case _ flags hflags =>
    split at h
    · simp only [Except.ok.injEq, Prod.mk.injEq] at h
      obtain ⟨h1, h2⟩ := h
      subst h1
      subst h2
      exact ⟨rfl, rfl, rfl, rfl, rfl, hwr, hwt, by simp⟩
    · split at h
      case _ crank_revs crank_time heqr heqt =>
        have hcr : crank_revs < 65536 := unpackU16_lt _ _ _ hb heqr
        have hct : crank_time < 65536 := unpackU16_lt _ _ _ hb heqt
        split at h
        case _ pr pt hlr hlt =>
          have hpr : pr < 65536 := by
            rw [hlr] at hwr
            exact hwr
          by_cases hpos : 0 < (if (crank_time : Int) - (pt : Int) < 0
              then (crank_time : Int) - (pt : Int) + 65536
              else (crank_time : Int) - (pt : Int))
          · rw [if_pos hpos] at h
            simp only [Except.ok.injEq, Prod.mk.injEq] at h
            obtain ⟨h1, h2⟩ := h
            subst h1
            subst h2
            refine ⟨rfl, rfl, rfl, rfl, rfl, hcr, hct, ?_⟩
            intro v hv
            have hv2 : cadenceRound
                (if (crank_revs : Int) - (pr : Int) < 0
                  then (crank_revs : Int) - (pr : Int) + 65536
                  else (crank_revs : Int) - (pr : Int))
                (if (crank_time : Int) - (pt : Int) < 0
                  then (crank_time : Int) - (pt : Int) + 65536
                  else (crank_time : Int) - (pt : Int)) = v := by
              simpa using hv
            rw [← hv2]
            have hrd : (0 : Int) ≤
                (if (crank_revs : Int) - (pr : Int) < 0
                  then (crank_revs : Int) - (pr : Int) + 65536
                  else (crank_revs : Int) - (pr : Int)) := by
              split_ifs <;> omega
            exact cadenceRound_nonneg _ _ hrd (le_of_lt hpos)
          · rw [if_neg hpos] at h
            simp only [Except.ok.injEq, Prod.mk.injEq] at h
            obtain ⟨h1, h2⟩ := h
            subst h1
            subst h2
            exact ⟨rfl, rfl, rfl, rfl, rfl, hcr, hct, by simp⟩
        case _ hno =>
          simp only [Except.ok.injEq, Prod.mk.injEq] at h
          obtain ⟨h1, h2⟩ := h
          subst h1
          subst h2
          exact ⟨rfl, rfl, rfl, rfl, rfl, hcr, hct, by simp⟩
      case _ => simp at h
      case _ => simp at h

/-- Every address pushed by the dispatch loop was in the needed set. -/
lemma scanProcess_pushed_mem (needed : List String) :
    ∀ (disc found : List String) (a : String),
      a ∈ (scanProcess needed found disc).2 → a ∈ needed := by
  intro disc
  induction disc with
  | nil =>
    intro found a ha
    simp [scanProcess] at ha
  | cons addr rest ih =>
    intro found a ha
    by_cases hm : addr ∈ needed
    · simp only [scanProcess, if_pos hm, List.mem_cons] at ha
      rcases ha with ha | ha
      · rw [ha]; exact hm
      · exact ih (addr :: found) a ha
    · simp only [scanProcess, if_neg hm] at ha
      exact ih found a ha

/-- Every address in the found set after the dispatch loop was already
found before it or was discovered by this scan. -/
lemma scanProcess_found_mem (needed : List String) :
    ∀ (disc found : List String) (a : String),
      a ∈ (scanProcess needed found disc).1 → a ∈ found ∨ a ∈ disc := by
  intro disc
  induction disc with
  | nil =>
    intro found a ha
    simp only [scanProcess] at ha
    exact Or.inl ha
  | cons addr rest ih =>
    intro found a ha
    by_cases hm : addr ∈ needed
    · simp only [scanProcess, if_pos hm] at ha
      rcases ih (addr :: found) a ha with h | h
      · rcases List.mem_cons.mp h with h | h
        · exact Or.inr (by rw [h]; exact List.mem_cons_self _ _)
        · exact Or.inl h
      · exact Or.inr (List.mem_cons_of_mem _ h)
    · simp only [scanProcess, if_neg hm] at ha
      rcases ih found a ha with h | h
      · exact Or.inl h
      · exact Or.inr (List.mem_cons_of_mem _ h)

/-- In a duplicate-free list, the element at position `i` does not occur
before position `i`. -/
lemma nodup_getElem_not_mem_take (l : List String) (hl : l.Nodup) (i : Nat)
    (hi : i < l.length) : l[i] ∉ l.take i := by
  intro hmem
  have hnd : (l.take i ++ l.drop i).Nodup := by
    rw [List.take_append_drop]
    exact hl
  have hdisj := List.disjoint_of_nodup_append hnd
  have hmem2 : l[i] ∈ l.drop i := by
    rw [List.drop_eq_getElem_cons hi]
    exact List.mem_cons_self _ _
  exact hdisj hmem hmem2

/-- Membership in the still-needed set. -/
lemma stillNeeded_mem (targets found : List String) (a : String) :
    a ∈ stillNeeded targets found ↔ a ∈ targets ∧ a ∉ found := by
  simp [stillNeeded]

/-! ## Claim theorems -/

/-- Claim C1, first half as amended: a CSC notification carrying crank
data that is processed while the remembered pair is unset — which is
the situation at process start — only stores the sample's pair and
emits no cadence update; the disconnect transition, however, leaves the
remembered pair in place, so being the first sample after a disconnect
does not put the decoder back into this state. -/
theorem csc_first_sample_only_stores (wheel : Bool) (revs time : Nat) (s : SensorState)
    (h : s.last_crank_revs = none ∨ s.last_crank_time = none) :
    parse_csc_measurement (mkCrankSample wheel revs time) s =
      Except.ok ({ s with last_crank_revs := some revs, last_crank_time := some time },
        none) ∧
    (gymOnDisconnect s).last_crank_revs = s.last_crank_revs ∧
    (gymOnDisconnect s).last_crank_time = s.last_crank_time := by
  refine ⟨?_, rfl, rfl⟩
  cases wheel
  case false =>
    exact parse_csc_crank_first _ s 2 revs time rfl (by decide)
      (mkCrank_false_revs revs time) (mkCrank_false_time revs time) h
  case true =>
    exact parse_csc_crank_first _ s 3 revs time rfl (by decide)
      (mkCrank_true_revs revs time) (mkCrank_true_time revs time) h

/-- Claim C1, witness: the very first crank sample after process start
(all-default state) stores (100, 1024) and emits nothing. -/
theorem csc_first_sample_only_stores_app :
    parse_csc_measurement (mkCrankSample false 100 1024) ({} : SensorState) =
      Except.ok
        ({ last_crank_revs := some 100, last_crank_time := some 1024 }, none) :=
  (csc_first_sample_only_stores false 100 1024 {} (Or.inl rfl)).1

/-- Claim C1, counterexample to the claim as stated: after the
Gymnasticon session's disconnect transition on a state that remembers
the pair (100, 1024), the first crank sample (110, 2048) of the next
connection emits the cadence 600 instead of emitting nothing, because
the disconnect reset does not clear the remembered pair. -/
theorem csc_reconnect_emits_cadence :
    parse_csc_measurement (mkCrankSample false 110 2048)
        (gymOnDisconnect
          { power := 150, hr := 0, cadence := 95, connected_gymnasticon := true,
            connected_coros := false, last_crank_revs := some 100,
            last_crank_time := some 1024 }) =
      Except.ok
        ({ power := 0, hr := 0, cadence := 0, connected_gymnasticon := false,
           connected_coros := false, last_crank_revs := some 110,
           last_crank_time := some 2048 }, some 600) := rfl

/-- Claim C2: contrary to the claim, the decoders are not total on short
buffers — each of them faults (IndexError from `data[...]` or
struct.error from `unpack_from`) when the buffer is shorter than the
fields it reads, as the source has no bounds checks. -/
theorem decoders_fault_on_short_buffers :
    parse_heart_rate [] = Except.error PyErr.indexError ∧
    parse_heart_rate [0] = Except.error PyErr.indexError ∧
    parse_heart_rate [1] = Except.error PyErr.structError ∧
    parse_cycling_power [] = Except.error PyErr.structError ∧
    parse_cycling_power [0, 0, 5] = Except.error PyErr.structError ∧
    parse_csc_measurement [] ({} : SensorState) = Except.error PyErr.indexError ∧
    parse_csc_measurement [2] ({} : SensorState) = Except.error PyErr.structError :=
  ⟨rfl, rfl, rfl, rfl, rfl, rfl, rfl⟩

/-- Claim C3: when a crank-bearing CSC sample follows a stored previous
pair, the decoder stores the new pair and computes
`rev_delta = revs - prev_revs` and `time_delta = time - prev_time`,
adding 65536 to a negative delta; it emits nothing when the fixed
time delta is zero, and otherwise emits
`round(rev_delta / time_delta * 1024 * 60)` — `cadenceRound`, the
expression evaluated at IEEE-754 binary64 fidelity exactly as the
Python source computes it. -/
theorem csc_cadence_delta_formula (wheel : Bool) (revs time pr pt : Nat) (s : SensorState)
    (h1 : revs < 65536) (h2 : time < 65536) (h3 : pr < 65536) (h4 : pt < 65536)
    (h5 : s.last_crank_revs = some pr) (h6 : s.last_crank_time = some pt) :
    parse_csc_measurement (mkCrankSample wheel revs time) s =
      Except.ok ({ s with last_crank_revs := some revs, last_crank_time := some time },
        if (if (time : Int) - (pt : Int) < 0 then (time : Int) - (pt : Int) + 65536
            else (time : Int) - (pt : Int)) = 0 then none
        else
          some (cadenceRound
            (if (revs : Int) - (pr : Int) < 0 then (revs : Int) - (pr : Int) + 65536
              else (revs : Int) - (pr : Int))
            (if (time : Int) - (pt : Int) < 0 then (time : Int) - (pt : Int) + 65536
              else (time : Int) - (pt : Int)))) := by
  have key : parse_csc_measurement (mkCrankSample wheel revs time) s =
      (if 0 < (if (time : Int) - (pt : Int) < 0 then (time : Int) - (pt : Int) + 65536
               else (time : Int) - (pt : Int)) then
        Except.ok ({ s with last_crank_revs := some revs, last_crank_time := some time },
          some (cadenceRound
            (if (revs : Int) - (pr : Int) < 0 then (revs : Int) - (pr : Int) + 65536
              else (revs : Int) - (pr : Int))
            (if (time : Int) - (pt : Int) < 0 then (time : Int) - (pt : Int) + 65536
              else (time : Int) - (pt : Int))))
      else
        Except.ok ({ s with last_crank_revs := some revs, last_crank_time := some time },
          none)) := by
    cases wheel
    case false =>
      exact parse_csc_crank_prev _ s 2 revs time pr pt rfl (by decide)
        (mkCrank_false_revs revs time) (mkCrank_false_time revs time) h5 h6
    case true =>
      exact parse_csc_crank_prev _ s 3 revs time pr pt rfl (by decide)
        (mkCrank_true_revs revs time) (mkCrank_true_time revs time) h5 h6
  rw [key]
  split_ifs <;> first | rfl | omega

/-- Claim C3, witness: the rollover example — previous pair
(65530, 65530), next sample (4, 10) gives deltas 10 and 16 and cadence
38400. -/
theorem csc_cadence_delta_formula_rollover :
    parse_csc_measurement (mkCrankSample false 4 10)
        ({ last_crank_revs := some 65530, last_crank_time := some 65530 } : SensorState) =
      Except.ok
        ({ last_crank_revs := some 4, last_crank_time := some 10 }, some 38400) := by
  have h := csc_cadence_delta_formula false 4 10 65530 65530
      { last_crank_revs := some 65530, last_crank_time := some 65530 }
      (by decide) (by decide) (by decide) (by decide) rfl rfl
  rw [h]
  rfl

/-- Claim C4: on link loss the Gymnasticon session clears its connected
flag and zeroes exactly power and cadence, leaving the heart rate, the
other device's flag and the crank memory untouched; the COROS session
clears its connected flag and zeroes exactly the heart rate, leaving
power, cadence, the other device's flag and the crank memory
untouched. -/
theorem disconnect_resets_owned_metrics (s : SensorState) :
    gymOnDisconnect s =
      { s with connected_gymnasticon := false, power := 0, cadence := 0 } ∧
    (gymOnDisconnect s).hr = s.hr ∧
    (gymOnDisconnect s).connected_coros = s.connected_coros ∧
    (gymOnDisconnect s).last_crank_revs = s.last_crank_revs ∧
    (gymOnDisconnect s).last_crank_time = s.last_crank_time ∧
    corosOnDisconnect s = { s with connected_coros := false, hr := 0 } ∧
    (corosOnDisconnect s).power = s.power ∧
    (corosOnDisconnect s).cadence = s.cadence ∧
    (corosOnDisconnect s).connected_gymnasticon = s.connected_gymnasticon ∧
    (corosOnDisconnect s).last_crank_revs = s.last_crank_revs ∧
    (corosOnDisconnect s).last_crank_time = s.last_crank_time :=
  ⟨rfl, rfl, rfl, rfl, rfl, rfl, rfl, rfl, rfl, rfl, rfl⟩

/-- Claim C5: the scanner dispatcher never pushes a handoff event for an
address that is in its found set — neither an address found at the
start of the cycle (first and second conjuncts; the second states that
at the moment an address of a duplicate-free scan result is pushed, it
is not in the running found set) — and a cycle whose still-needed set
is empty clears the found set (third conjunct), after which a target
address is scanned for and handed off again (fourth conjunct). -/
theorem scanner_no_repush_and_found_reset (targets found discovered : List String)
    (hnd : discovered.Nodup) :
    (∀ a, a ∈ found → a ∉ (scan_cycle targets found discovered).2) ∧
    (∀ i (hi : i < discovered.length),
        discovered[i] ∈ stillNeeded targets found →
        discovered[i] ∉
          (scanProcess (stillNeeded targets found) found (discovered.take i)).1) ∧
    ((∀ t, t ∈ targets → t ∈ found) → scan_cycle targets found discovered = ([], [])) ∧
    (∀ a, a ∈ targets → (scan_cycle targets [] [a]).2 = [a]) := by
  refine ⟨?_, ?_, ?_, ?_⟩
  · intro a ha hmem
    unfold scan_cycle at hmem
    by_cases hne : stillNeeded targets found = []
    · rw [if_pos hne] at hmem
      simp at hmem
    · rw [if_neg hne] at hmem
      have h2 := scanProcess_pushed_mem _ _ _ _ hmem
      exact ((stillNeeded_mem targets found a).mp h2).2 ha
  · intro i hi hneed hmem
    rcases scanProcess_found_mem _ _ _ _ hmem with h2 | h2
    · exact ((stillNeeded_mem targets found _).mp hneed).2 h2
    · exact nodup_getElem_not_mem_take discovered hnd i hi h2
  · intro hall
    have hne : stillNeeded targets found = [] := by
      rw [stillNeeded, List.filter_eq_nil_iff]
      intro a ha
      simp [hall a ha]
    unfold scan_cycle
    rw [if_pos hne]
  · intro a ha
    have hmem : a ∈ stillNeeded targets [] := by
      rw [stillNeeded_mem]
      exact ⟨ha, by simp⟩
    have hne : stillNeeded targets [] ≠ [] := List.ne_nil_of_mem hmem
    unfold scan_cycle
    rw [if_neg hne]
    simp [scanProcess, hmem]

/-- Claim C5, witness: with targets A and B, A already found, and a scan
that discovered B, no handoff event is pushed for A. -/
theorem scanner_no_repush_app : "A" ∉ (scan_cycle ["A", "B"] ["A"] ["B"]).2 :=
  (scanner_no_repush_and_found_reset ["A", "B"] ["A"] ["B"] (by decide)).1 "A"
    (by decide)

/-- Claim C6: when the connect attempt fails (`connect_device` returned
`None`), the session step leaves the state unchanged — in particular it
never sets the device's connected flag — sleeps the constant
`RECONNECT_DELAY`, and goes back to the idle phase, i.e. to blocking on
its handoff queue for a fresh discovery event rather than retrying the
same device handle. -/
theorem connect_failure_returns_idle (s : SensorState) :
    manageAfterConnect none setConnGym s = (s, SessionPhase.idle, RECONNECT_DELAY) ∧
    manageAfterConnect none setConnCoros s = (s, SessionPhase.idle, RECONNECT_DELAY) ∧
    (manageAfterConnect none setConnGym s).1.connected_gymnasticon =
      s.connected_gymnasticon ∧
    (manageAfterConnect none setConnCoros s).1.connected_coros = s.connected_coros :=
  ⟨rfl, rfl, rfl, rfl⟩

/-- Claim C7: every write to the shared metrics state keeps the three
metrics nonnegative (stated with the inductive strengthening `stateWF`,
which also records that the stored crank pair is 16-bit): each decoder
handler on a well-formed byte buffer and each session's disconnect
reset preserves `stateWF`, and `stateWF` contains
`0 ≤ power ∧ 0 ≤ hr ∧ 0 ≤ cadence`. -/
theorem writes_preserve_nonneg (data : List Nat) (s : SensorState)
    (hb : ∀ b ∈ data, b < 256) (hs : stateWF s) :
    stateWF (handle_heart_rate data s) ∧
    stateWF (handle_cycling_power data s) ∧
    stateWF (handle_csc_measurement data s) ∧
    stateWF (gymOnDisconnect s) ∧
    stateWF (corosOnDisconnect s) := by
  obtain ⟨hp, hh, hc, hwr, hwt⟩ := hs
  refine ⟨?_, ?_, ?_, ?_, ?_⟩
  · unfold handle_heart_rate
    split
    case _ v hv =>
      exact ⟨hp, Int.ofNat_nonneg v, hc, hwr, hwt⟩
    case _ => exact ⟨hp, hh, hc, hwr, hwt⟩
  · unfold handle_cycling_power
    split
    case _ p hpv =>
      exact ⟨parse_cycling_power_nonneg data p hpv, hh, hc, hwr, hwt⟩
    case _ => exact ⟨hp, hh, hc, hwr, hwt⟩
  · unfold handle_csc_measurement
    split
    case _ t cv hok =>
      obtain ⟨e1, e2, e3, _, _, e6, e7, e8⟩ :=
        parse_csc_ok_fields data s t (some cv) hb hwr hwt hok
      exact ⟨e1 ▸ hp, e2 ▸ hh, e8 cv rfl, e6, e7⟩
    case _ t hok =>
      obtain ⟨e1, e2, e3, _, _, e6, e7, _⟩ :=
        parse_csc_ok_fields data s t none hb hwr hwt hok
      exact ⟨e1 ▸ hp, e2 ▸ hh, e3 ▸ hc, e6, e7⟩
    case _ => exact ⟨hp, hh, hc, hwr, hwt⟩
  · exact ⟨le_refl 0, hh, le_refl 0, hwr, hwt⟩
  · exact ⟨hp, le_refl 0, hc, hwr, hwt⟩

/-- Claim C7, witness: a heart-rate notification applied to the initial
state keeps the metrics nonnegative. -/
theorem writes_preserve_nonneg_app :
    stateWF (handle_heart_rate [0, 77] ({} : SensorState)) :=
  (writes_preserve_nonneg [0, 77] {} (by decide)
    ⟨le_refl 0, le_refl 0, le_refl 0, trivial, trivial⟩).1

/-- Claim C8: on a buffer whose flags byte has bit 0 clear the
heart-rate decoder returns the single byte at offset 1, and on a buffer
whose flags byte has bit 0 set it returns the little-endian 16-bit
value at offset 1. -/
theorem parse_heart_rate_flag_cases :
    (∀ (f v : Nat) (rest : List Nat), f.testBit 0 = false →
        parse_heart_rate (f :: v :: rest) = Except.ok v) ∧
    (∀ (f lo hi : Nat) (rest : List Nat), f.testBit 0 = true →
        parse_heart_rate (f :: lo :: hi :: rest) = Except.ok (lo + 256 * hi)) := by
  constructor
  · intro f v rest hf
    unfold parse_heart_rate getByte
    simp [hf]
  · intro f lo hi rest hf
    unfold parse_heart_rate getByte unpackU16
    simp [hf]

/-- Claim C8, witness: flags 0 with byte 77 decodes to 77, and flags 1
with little-endian bytes (44, 1) decodes to 300. -/
theorem parse_heart_rate_flag_cases_app :
    parse_heart_rate [0, 77] = Except.ok 77 ∧
    parse_heart_rate [1, 44, 1, 9] = Except.ok 300 :=
  ⟨parse_heart_rate_flag_cases.1 0 77 [] (by decide),
    parse_heart_rate_flag_cases.2 1 44 1 [9] (by decide)⟩

/-- Claim C9: on any buffer long enough, the power decoder returns the
little-endian signed 16-bit value of bytes 2 and 3 clamped to be
nonnegative, whatever the flag bytes 0 and 1 and any trailing bytes
hold; in particular the raw value -50 (bytes 206, 255) decodes to 0 and
the raw value 237 decodes to 237. -/
theorem parse_cycling_power_spec :
    (∀ (b0 b1 lo hi : Nat) (rest : List Nat),
        parse_cycling_power (b0 :: b1 :: lo :: hi :: rest) =
          Except.ok (max 0 (leSigned16 (lo + 256 * hi)))) ∧
    parse_cycling_power [0, 0, 206, 255] = Except.ok 0 ∧
    parse_cycling_power [0, 0, 237, 0] = Except.ok 237 :=
  ⟨fun _ _ _ _ _ => rfl, rfl, rfl⟩

/-- Claim C10: a successful connect with every per-characteristic
subscription failing still returns a client — with an empty
subscription set — and the session step on that client marks the device
connected and enters the monitoring phase. -/
theorem connected_despite_sub_failures (chars : List (String × Bool)) (s : SensorState)
    (hall : ∀ c ∈ chars, c.2 = false) :
    connect_device true chars = some { subscriptions := [] } ∧
    (manageAfterConnect (connect_device true chars) setConnGym s).1.connected_gymnasticon
      = true ∧
    (manageAfterConnect (connect_device true chars) setConnGym s).2.1 =
      SessionPhase.monitoring := by
  have hfe : chars.filter (fun c => c.2) = [] := by
    rw [List.filter_eq_nil_iff]
    intro c hc
    simp [hall c hc]
  refine ⟨?_, ?_, ?_⟩ <;>
    simp [connect_device, hfe, manageAfterConnect, setConnGym]

/-- Claim C10, witness: the Gymnasticon characteristic list with both
subscriptions failing still yields a connected client with no active
subscriptions. -/
theorem connected_despite_sub_failures_app :
    connect_device true [(CHAR_CYCLING_POWER, false), (CHAR_CSC_MEASUREMENT, false)] =
      some { subscriptions := [] } :=
  (connected_despite_sub_failures
    [(CHAR_CYCLING_POWER, false), (CHAR_CSC_MEASUREMENT, false)] {} (by decide)).1
